import Mathlib

/-!
Verification of the CSV → ABA converter in `src/tools/csv2aba/scripts.js`.

The JavaScript source is shallowly embedded below.  Conventions of the
embedding:

* JS strings are Lean `String`s; `padStart`/`padEnd`/`trim`/single-character
  `replace` are modelled by `jsPadStart`/`jsPadEnd`/`jsTrim`/`jsRemoveFirst`
  (JS `replace` with a string pattern replaces only the first occurrence).
* A JS row object is a `Row` of five optional fields; `none` models a
  missing (`undefined`/`null`) column.
* The number produced by `parseFloat` is modelled exactly as a decimal value
  `mant * 10 ^ exp` (`DecValue`); `NaN` is `Option.none`.  `Math.round` is
  round-half-up (`jsRoundDec`).  The model uses exact decimal arithmetic
  where JS uses binary doubles; no claim below depends on a half-cent tie or
  on double rounding error, and `Infinity` inputs are not modelled.
* The integer amounts flowing through the batch are `JSInt`: either a true
  integer or the absorbing `NaN` (JS `NaN` propagates through `+` and prints
  as the string "NaN").
* The `assert`-style length checks that `throw` in JS are modelled with
  `Except String`; an `.error` result is a thrown exception, `.ok` a normal
  return.  `[null, null]` from `generate_detail_record` is `.ok none`.
* `new Date()` is modelled by an explicit `JSDate` argument carrying the
  results of `getDate()`, `getMonth()` and `getFullYear()`.
-/

namespace Aba

/-- Decimal digit character for a digit value below ten. -/
def digitChar (n : ℕ) : Char :=
  match n with
  | 0 => '0' | 1 => '1' | 2 => '2' | 3 => '3' | 4 => '4'
  | 5 => '5' | 6 => '6' | 7 => '7' | 8 => '8' | 9 => '9'
  | _ => '?'

/-- Fuel-driven decimal digit list of a natural number, most significant
digit first.  The fuel makes the recursion structural so that proofs can
evaluate it. -/
def natDigitsAux : ℕ → ℕ → List Char
  | 0, _ => []
  | fuel + 1, n =>
    if n < 10 then [digitChar n]
    else natDigitsAux fuel (n / 10) ++ [digitChar (n % 10)]

/-- Decimal digit list of a natural number. -/
def natDigits (n : ℕ) : List Char := natDigitsAux (n + 1) n

/-- Model of the JS decimal rendering `String(n)` for a natural number. -/
def natRepr (n : ℕ) : String := String.mk (natDigits n)

/-- Model of the JS decimal rendering `String(z)` for an integer. -/
def intRepr (z : ℤ) : String :=
  if z < 0 then "-" ++ natRepr z.natAbs else natRepr z.toNat

/-- A JS number restricted to the values that flow through the batch total:
an exact integer or `NaN`. -/
inductive JSInt where
  | int (z : ℤ)
  | nan
deriving DecidableEq

/-- JS `+` on batch amounts; `NaN` is absorbing. -/
def jsAdd : JSInt → JSInt → JSInt
  | .int a, .int b => .int (a + b)
  | _, _ => .nan

/-- Model of `String(x)` for a batch amount; `String(NaN)` is `"NaN"`. -/
def jsIntRepr : JSInt → String
  | .int z => intRepr z
  | .nan => "NaN"

/-- The natural-number reading of a batch amount, when it has one. -/
def jsIntNonneg : JSInt → Option ℕ
  | .int z => if z < 0 then none else some z.toNat
  | .nan => none

/-- Value of a list of decimal digit characters, most significant first. -/
def digitsToNat (l : List Char) : ℕ :=
  l.foldl (fun a c => 10 * a + (c.toNat - 48)) 0

/-- Reads a nonempty all-digit string back as a natural number. -/
def natOfDigits (s : String) : Option ℕ :=
  if s.data ≠ [] ∧ s.data.all Char.isDigit = true then some (digitsToNat s.data)
  else none

/-- The whitespace characters recognised by JS `trim` and `parseFloat`
(ASCII whitespace plus the no-break space). -/
def isJsWhitespace (c : Char) : Bool :=
  c = ' ' || c = '\t' || c = '\n' || c = '\r' || c = '\x0b' || c = '\x0c' || c = ' '

/-- Model of JS `String.prototype.trim`. -/
def jsTrim (s : String) : String :=
  String.mk (((s.data.dropWhile isJsWhitespace).reverse.dropWhile isJsWhitespace).reverse)

/-- Model of JS `String.prototype.padStart(n, c)` with a one-character pad. -/
def jsPadStart (s : String) (n : ℕ) (c : Char) : String :=
  if n ≤ s.length then s else String.mk (List.replicate (n - s.length) c) ++ s

/-- Model of JS `String.prototype.padEnd(n, c)` with a one-character pad. -/
def jsPadEnd (s : String) (n : ℕ) (c : Char) : String :=
  if n ≤ s.length then s else s ++ String.mk (List.replicate (n - s.length) c)

/-- Removes the first occurrence of a character from a character list. -/
def removeFirstChar : List Char → Char → List Char
  | [], _ => []
  | a :: t, c => if a = c then t else a :: removeFirstChar t c

/-- Model of JS `String.prototype.replace(pat, '')` for a one-character
string pattern: only the first occurrence is removed. -/
def jsRemoveFirst (s : String) (c : Char) : String :=
  String.mk (removeFirstChar s.data c)

/-- Powers of ten as integers. -/
def pow10 : ℕ → ℤ
  | 0 => 1
  | k + 1 => 10 * pow10 k

/-- The exact value `mant * 10 ^ exp` of a parsed decimal literal. -/
structure DecValue where
  mant : ℤ
  exp : ℤ
deriving DecidableEq

/-- Splits an optional leading sign off a character list. -/
def splitSign (l : List Char) : ℤ × List Char :=
  match l with
  | c :: t => if c = '-' then (-1, t) else if c = '+' then (1, t) else (1, l)
  | [] => (1, [])

/-- Splits the fractional digits after a leading decimal point, if any. -/
def fracSplit (l : List Char) : List Char × List Char :=
  match l with
  | c :: t =>
    if c = '.' then (t.takeWhile Char.isDigit, t.dropWhile Char.isDigit) else ([], l)
  | [] => ([], [])

/-- Reads the optional exponent part `e`/`E` sign digits; an exponent
marker without digits contributes nothing, as in JS. -/
def expPart (l : List Char) : ℤ :=
  match l with
  | c :: t =>
    if c = 'e' ∨ c = 'E' then
      let st := splitSign t
      let ed := st.2.takeWhile Char.isDigit
      if ed = [] then 0 else st.1 * (digitsToNat ed : ℤ)
    else 0
  | [] => 0

/-- The significand and exponent assembly of `parseFloat`: `sign` is the
parsed sign, `ip` the integer digits, `fp` the fraction digits and `r2`
the rest of the string, which may begin with an exponent; `none` models
`NaN` when no digits were found. -/
def pfAssemble (sign : ℤ) (ip fp r2 : List Char) : Option DecValue :=
  if ip = [] ∧ fp = [] then none
  else some ⟨sign * (digitsToNat (ip ++ fp) : ℤ), expPart r2 - (fp.length : ℤ)⟩

/-- Model of JS `parseFloat`: skip leading whitespace, read an optional
sign, integer digits, an optional fraction and an optional exponent, and
return the exact decimal value of that longest prefix. -/
def jsParseFloat (s : String) : Option DecValue :=
  pfAssemble (splitSign (s.data.dropWhile isJsWhitespace)).1
    ((splitSign (s.data.dropWhile isJsWhitespace)).2.takeWhile Char.isDigit)
    (fracSplit ((splitSign (s.data.dropWhile isJsWhitespace)).2.dropWhile Char.isDigit)).1
    (fracSplit ((splitSign (s.data.dropWhile isJsWhitespace)).2.dropWhile Char.isDigit)).2

/-- Model of JS `Math.round` on an exact decimal value: round half away
from zero toward positive infinity. -/
def jsRoundDec (v : DecValue) : ℤ :=
  if 0 ≤ v.exp then v.mant * pow10 v.exp.toNat
  else (2 * v.mant + pow10 (-v.exp).toNat).fdiv (2 * pow10 (-v.exp).toNat)

/-- A run of space characters. -/
def spaces (n : ℕ) : String := String.mk (List.replicate n ' ')

/-- A run of zero characters. -/
def zeros (n : ℕ) : String := String.mk (List.replicate n '0')

/-- The substring of `s` from character position `a` (zero-based,
inclusive) to `b` (exclusive); `strSlice s 20 30` is "chars 21-30" in the
one-based language of the format description. -/
def strSlice (s : String) (a b : ℕ) : String :=
  String.mk ((s.data.drop a).take (b - a))

/-! The embedding of `scripts.js` proper. -/

/-- Record type tag of the descriptive (header) record. -/
def RecordTypes.DESCRIPTIVE : String := "0"

/-- Record type tag of a detail record. -/
def RecordTypes.DETAIL : String := "1"

/-- Record type tag of the file total (trailer) record. -/
def RecordTypes.FIELD_TOTAL : String := "7"

/-- The fixed record length. -/
def LINE_LENGTH : ℕ := 120

/-- The result of `new Date()`: the values of `getDate()`, `getMonth()`
(zero-based) and `getFullYear()`. -/
structure JSDate where
  day : ℕ
  monthIdx : ℕ
  year : ℕ

/-- Model of `String(year).slice(-2)`: the last two characters, or the
whole string when it is shorter. -/
def sliceLast2 (s : String) : String :=
  String.mk (s.data.drop (s.data.length - 2))

/-- The `DDMMYY` processing date string built by
`generate_descriptive_record`. -/
def processDateOf (today : JSDate) : String :=
  jsPadStart (natRepr today.day) 2 '0' ++
  jsPadStart (natRepr (today.monthIdx + 1)) 2 '0' ++
  sliceLast2 (natRepr today.year)

/-- The descriptive record string assembled by
`generate_descriptive_record`, before its length assertion. -/
def descriptiveRecordOf (today : JSDate) : String :=
  RecordTypes.DESCRIPTIVE ++ spaces 17 ++ "01" ++ "CBA" ++ spaces 7 ++
  jsPadEnd "Meya" 26 ' ' ++ jsPadStart "00" 6 '0' ++ jsPadEnd "PAYROLL" 12 ' ' ++
  processDateOf today ++ spaces 40

/-- Embedding of `generate_descriptive_record`; the failed length
assertion is a thrown `Error`. -/
def generate_descriptive_record (today : JSDate) : Except String String :=
  if (descriptiveRecordOf today).length ≠ LINE_LENGTH then
    .error ("Assertion failed: Descriptive record length is " ++
      natRepr (descriptiveRecordOf today).length ++ ", expected 120")
  else .ok (descriptiveRecordOf today)

/-- A parsed CSV row: the five named columns, `none` when absent. -/
structure Row where
  BSB : Option String
  Reference : Option String
  Name : Option String
  Account : Option String
  Amount : Option String

/-- The per-column test of `generate_detail_record`: absent, or blank
after trimming. -/
def blankField : Option String → Bool
  | none => true
  | some s => jsTrim s = ""

/-- The row-validation test: some required column is absent or blank. -/
def rowInvalid (row : Row) : Bool :=
  blankField row.BSB || blankField row.Reference || blankField row.Name ||
  blankField row.Account || blankField row.Amount

/-- The normalised amount string:
`row['Amount'].replace('$', '').replace(',', '').trim()`. -/
def amountStrOf (row : Row) : String :=
  jsTrim (jsRemoveFirst (jsRemoveFirst (row.Amount.getD "") '$') ',')

/-- The amount in cents: `Math.round(parseFloat(amountStr) * 100)`. -/
def detailAmountOf (row : Row) : JSInt :=
  match jsParseFloat (amountStrOf row) with
  | none => JSInt.nan
  | some v => JSInt.int (jsRoundDec ⟨v.mant, v.exp + 2⟩)

/-- The detail record string assembled by `generate_detail_record`,
before its length assertion. -/
def detailRecordOf (row : Row) : String :=
  RecordTypes.DETAIL ++
  jsTrim (row.BSB.getD "") ++
  jsPadStart (jsTrim (row.Account.getD "")) 9 ' ' ++
  " " ++ "53" ++
  jsPadStart (jsIntRepr (detailAmountOf row)) 10 '0' ++
  jsPadEnd (jsTrim (row.Name.getD "")) 32 ' ' ++
  jsPadEnd (jsTrim (row.Reference.getD "")) 18 ' ' ++
  jsTrim (row.BSB.getD "") ++
  jsPadStart (jsTrim (row.Account.getD "")) 9 ' ' ++
  jsPadEnd "Meya" 16 ' ' ++
  zeros 8

/-- Embedding of `generate_detail_record`: `.ok none` is the JS
`[null, null]` skip, `.error` the thrown length assertion. -/
def generate_detail_record (row : Row) : Except String (Option (String × JSInt)) :=
  if rowInvalid row then .ok none
  else if (detailRecordOf row).length ≠ LINE_LENGTH then
    .error ("Assertion failed: Detail record length is " ++
      natRepr (detailRecordOf row).length ++ ", expected 120")
  else .ok (some (detailRecordOf row, detailAmountOf row))

/-- The trailer record string assembled by `generate_file_total_record`,
before its length assertion; the count is `aba_content.length - 1`. -/
def trailerRecordOf (aba_content : List String) (total_amount : JSInt) : String :=
  RecordTypes.FIELD_TOTAL ++ "999-999" ++ spaces 12 ++
  jsPadStart (jsIntRepr total_amount) 10 '0' ++
  jsPadStart (jsIntRepr total_amount) 10 '0' ++
  zeros 10 ++ spaces 24 ++
  jsPadStart (intRepr ((aba_content.length : ℤ) - 1)) 6 '0' ++
  spaces 40

/-- Embedding of `generate_file_total_record`. -/
def generate_file_total_record (aba_content : List String) (total_amount : JSInt) :
    Except String String :=
  if (trailerRecordOf aba_content total_amount).length ≠ LINE_LENGTH then
    .error ("Assertion failed: Trailer record length is " ++
      natRepr (trailerRecordOf aba_content total_amount).length ++ ", expected 120")
  else .ok (trailerRecordOf aba_content total_amount)

/-- The row loop of `processCsvToAba`: pushes each accepted detail record
onto `aba_content` and adds its amount to the running total. -/
def runRows (acc : List String) (total : JSInt) : List Row →
    Except String (List String × JSInt)
  | [] => .ok (acc, total)
  | row :: rest =>
    match generate_detail_record row with
    | .error e => .error e
    | .ok none => runRows acc total rest
    | .ok (some (rec, amt)) => runRows (acc ++ [rec]) (jsAdd total amt) rest

/-- The record lines of `processCsvToAba`: the `aba_content` array after
the trailer is pushed, before joining. -/
def abaLines (csvData : List Row) (today : JSDate) : Except String (List String) :=
  match generate_descriptive_record today with
  | .error e => .error e
  | .ok header =>
    match runRows [header] (JSInt.int 0) csvData with
    | .error e => .error e
    | .ok (content, total) =>
      match generate_file_total_record content total with
      | .error e => .error e
      | .ok trailer => .ok (content ++ [trailer])

/-- Embedding of `processCsvToAba`: `aba_content.join('\n') + '\n'`. -/
def processCsvToAba (csvData : List Row) (today : JSDate) : Except String String :=
  match abaLines csvData today with
  | .error e => .error e
  | .ok ls => .ok (String.intercalate "\n" ls ++ "\n")

/-! Specification-side views of the loop, used to state the claims. -/

/-- The record/amount pairs of the rows the detail encoder accepts, in
input order. -/
def acceptedPairs (rows : List Row) : List (String × JSInt) :=
  rows.filterMap (fun r =>
    match generate_detail_record r with
    | .ok (some p) => some p
    | _ => none)

/-- The accepted detail record strings, in input order. -/
def acceptedRecords (rows : List Row) : List String :=
  (acceptedPairs rows).map Prod.fst

/-- The accepted detail amounts, in input order. -/
def acceptedAmounts (rows : List Row) : List JSInt :=
  (acceptedPairs rows).map Prod.snd

/-- The arithmetic sum of the accepted detail amounts. -/
def sumAmounts (rows : List Row) : JSInt :=
  (acceptedAmounts rows).foldl jsAdd (JSInt.int 0)

/-- Classification of a detail-encoder result used by the amended claim
C4: a returned record has the contractual length, a skip is never produced
for a valid row, and a thrown assertion returns nothing. -/
def detailLengthOk : Except String (Option (String × JSInt)) → Prop
  | .ok (some (rec, _)) => rec.length = 120
  | .ok none => False
  | .error _ => True

/-- Modelled from the spec (claim C5's wording): strip a leading currency
symbol and all thousands-separator commas, trim, parse as a decimal
number, multiply by 100, and round to the nearest integer. -/
def specMinorUnits (s : String) : JSInt :=
  let noDollar : List Char := match s.data with
    | '$' :: t => t
    | l => l
  let noCommas := String.mk (noDollar.filter (fun c => c ≠ ','))
  match jsParseFloat (jsTrim noCommas) with
  | none => JSInt.nan
  | some v => JSInt.int (jsRoundDec ⟨v.mant, v.exp + 2⟩)

/-! Concrete inputs used by the witnesses and counterexamples. -/

/-- A fixed processing date: 12 October 2026. -/
def d0 : JSDate := ⟨12, 9, 2026⟩

/-- The example valid row of the spec's round-trip scenario. -/
def row6 : Row := ⟨some "000-000", some "TEST", some "R SMITH", some "157108231",
  some "$1,234.56"⟩

/-- A valid row with a one-character BSB. -/
def row4 : Row := ⟨some "1", some "T", some "N", some "2", some "12.00"⟩

/-- A valid row whose amount uses two thousands-separator commas. -/
def row5 : Row := ⟨some "000-000", some "TEST", some "R SMITH", some "157108231",
  some "$1,234,567.89"⟩

/-- A valid row with a six-character BSB and a twelve-digit cent amount. -/
def row9 : Row := ⟨some "123456", some "TEST", some "R SMITH", some "157108231",
  some "9999999999.99"⟩

/-- A valid row whose amount is not numeric. -/
def rowAbc : Row := ⟨some "000-000", some "TEST", some "R SMITH", some "157108231",
  some "abc"⟩

/-- A trailing blank row as produced by the CSV reader. -/
def blankRow : Row := ⟨some "", some "", some "", some "", some ""⟩

/-- Modelled from the amended claim C5 wording: remove the first currency
symbol and the first comma (only the first of each), trim, parse the
longest decimal prefix, multiply by 100 and round to the nearest integer. -/
def amendedMinorUnits (s : String) : JSInt :=
  match jsParseFloat (jsTrim (jsRemoveFirst (jsRemoveFirst s '$') ',')) with
  | none => JSInt.nan
  | some v => JSInt.int (jsRoundDec ⟨v.mant, v.exp + 2⟩)

/-- The record lines produced for the empty table on the fixed date. -/
def lines0 : List String :=
  [descriptiveRecordOf d0, trailerRecordOf [descriptiveRecordOf d0] (JSInt.int 0)]

/-- The record lines produced for the one-row table `[row6]` on the fixed
date. -/
def lines6 : List String :=
  [descriptiveRecordOf d0, detailRecordOf row6,
    trailerRecordOf [descriptiveRecordOf d0, detailRecordOf row6] (sumAmounts [row6])]

/-- The trailer record of the one-row table `[row6]`. -/
def trailer6 : String :=
  trailerRecordOf [descriptiveRecordOf d0, detailRecordOf row6] (sumAmounts [row6])

/-- The detail record produced for `row9`. -/
def rec9 : String := detailRecordOf row9

/-- The detail record produced for `rowAbc`. -/
def recAbc : String := detailRecordOf rowAbc

/-- The record lines produced for the one-row table `[rowAbc]` on the
fixed date. -/
def linesAbc : List String :=
  [descriptiveRecordOf d0, detailRecordOf rowAbc,
    trailerRecordOf [descriptiveRecordOf d0, detailRecordOf rowAbc] (sumAmounts [rowAbc])]

/-- The trailer record of the one-row table `[rowAbc]`. -/
def trailerAbc : String :=
  trailerRecordOf [descriptiveRecordOf d0, detailRecordOf rowAbc] (sumAmounts [rowAbc])

/-! Basic facts about the string helpers. -/

theorem length_eq_data (s : String) : s.length = s.data.length := rfl

theorem mk_data (l : List Char) : (String.mk l).data = l := rfl

theorem mk_length (l : List Char) : (String.mk l).length = l.length := rfl

theorem jsPadStart_data (s : String) (n : ℕ) (c : Char) :
    (jsPadStart s n c).data = List.replicate (n - s.length) c ++ s.data := by
  unfold jsPadStart
  split
  · next h =>
    rw [Nat.sub_eq_zero_of_le h]
    simp
  · simp

theorem jsPadEnd_data (s : String) (n : ℕ) (c : Char) :
    (jsPadEnd s n c).data = s.data ++ List.replicate (n - s.length) c := by
  unfold jsPadEnd
  split
  · next h =>
    rw [Nat.sub_eq_zero_of_le h]
    simp
  · simp

theorem jsPadStart_length (s : String) (n : ℕ) (c : Char) :
    (jsPadStart s n c).length = max n s.length := by
  rw [length_eq_data, jsPadStart_data, List.length_append, List.length_replicate,
    ← length_eq_data]
  omega

theorem jsPadEnd_length (s : String) (n : ℕ) (c : Char) :
    (jsPadEnd s n c).length = max n s.length := by
  rw [length_eq_data, jsPadEnd_data, List.length_append, List.length_replicate,
    ← length_eq_data]
  omega

theorem spaces_length (n : ℕ) : (spaces n).length = n := by
  simp [spaces, length_eq_data]

theorem zeros_length (n : ℕ) : (zeros n).length = n := by
  simp [zeros, length_eq_data]

theorem slice_parts (s : String) (p mid suf : List Char) (a m : ℕ)
    (hs : s.data = p ++ (mid ++ suf)) (hp : p.length = a) (hm : mid.length = m) :
    strSlice s a (a + m) = String.mk mid := by
  unfold strSlice
  rw [hs, Nat.add_sub_cancel_left, ← hp, List.drop_left]
  rw [List.take_left' hm]

/-! Decimal rendering and re-reading. -/

theorem digitChar_isDigit (n : ℕ) (h : n < 10) : (digitChar n).isDigit = true := by
  interval_cases n <;> decide

theorem digitChar_val (n : ℕ) (h : n < 10) : (digitChar n).toNat - 48 = n := by
  interval_cases n <;> decide

theorem digitsToNat_nil : digitsToNat [] = 0 := rfl

theorem foldl_digits_shift (l : List Char) (a : ℕ) :
    l.foldl (fun a c => 10 * a + (c.toNat - 48)) a =
      a * 10 ^ l.length + digitsToNat l := by
  induction l generalizing a with
  | nil => simp [digitsToNat]
  | cons c t ih =>
    simp only [List.foldl_cons, List.length_cons, digitsToNat]
    rw [ih (10 * a + (c.toNat - 48)), ih (10 * 0 + (c.toNat - 48))]
    ring

theorem digitsToNat_append (l1 l2 : List Char) :
    digitsToNat (l1 ++ l2) = digitsToNat l1 * 10 ^ l2.length + digitsToNat l2 := by
  unfold digitsToNat
  rw [List.foldl_append]
  exact foldl_digits_shift l2 _

theorem digitsToNat_cons (c : Char) (l : List Char) :
    digitsToNat (c :: l) = (c.toNat - 48) * 10 ^ l.length + digitsToNat l := by
  have : (c :: l) = [c] ++ l := rfl
  rw [this, digitsToNat_append]
  simp [digitsToNat]

theorem digitsToNat_replicate_zero (k : ℕ) :
    digitsToNat (List.replicate k '0') = 0 := by
  induction k with
  | zero => rfl
  | succ k ih =>
    rw [List.replicate_succ, digitsToNat_cons, ih]
    rw [show '0'.toNat - 48 = 0 from rfl]
    ring

theorem natDigitsAux_spec (fuel n : ℕ) (h : n < fuel) :
    digitsToNat (natDigitsAux fuel n) = n := by
  induction fuel generalizing n with
  | zero => omega
  | succ fuel ih =>
    unfold natDigitsAux
    split
    · next h10 =>
      rw [digitsToNat_cons]
      simp [digitsToNat_nil, digitChar_val n h10]
    · next h10 =>
      rw [digitsToNat_append, ih (n / 10) (by omega), digitsToNat_cons]
      simp [digitsToNat_nil, digitChar_val (n % 10) (Nat.mod_lt n (by omega))]
      omega

theorem natDigitsAux_all_digit (fuel n : ℕ) :
    (natDigitsAux fuel n).all Char.isDigit = true := by
  induction fuel generalizing n with
  | zero => rfl
  | succ fuel ih =>
    unfold natDigitsAux
    split
    · next h10 => simp [digitChar_isDigit n h10]
    · next h10 =>
      rw [List.all_append]
      simp [ih (n / 10), digitChar_isDigit (n % 10) (Nat.mod_lt n (by omega))]

theorem natDigitsAux_ne_nil (fuel n : ℕ) (h : 0 < fuel) :
    natDigitsAux fuel n ≠ [] := by
  cases fuel with
  | zero => omega
  | succ fuel =>
    unfold natDigitsAux
    split
    · simp
    · simp

theorem natDigits_spec (n : ℕ) : digitsToNat (natDigits n) = n :=
  natDigitsAux_spec (n + 1) n (by omega)

theorem natDigits_all_digit (n : ℕ) : (natDigits n).all Char.isDigit = true :=
  natDigitsAux_all_digit (n + 1) n

theorem natDigits_ne_nil (n : ℕ) : natDigits n ≠ [] :=
  natDigitsAux_ne_nil (n + 1) n (by omega)

theorem natDigitsAux_len_le (k : ℕ) : ∀ fuel n : ℕ, n < fuel → 1 ≤ k → n < 10 ^ k →
    (natDigitsAux fuel n).length ≤ k := by
  induction k with
  | zero => omega
  | succ k ih =>
    intro fuel n hf _ hk
    cases fuel with
    | zero => omega
    | succ fuel =>
      unfold natDigitsAux
      split
      · simp
      · next h10 =>
        rw [List.length_append]
        have hk1 : 1 ≤ k := by
          by_contra hcon
          have : k = 0 := by omega
          subst this
          simp at hk
          omega
        have hdiv : n / 10 < 10 ^ k := by
          rw [Nat.div_lt_iff_lt_mul (by omega)]
          calc n < 10 ^ (k + 1) := hk
          _ = 10 ^ k * 10 := by ring
        have := ih fuel (n / 10) (by omega) hk1 hdiv
        simp
        omega

theorem natDigits_len_le (k n : ℕ) (h1 : 1 ≤ k) (h : n < 10 ^ k) :
    (natDigits n).length ≤ k :=
  natDigitsAux_len_le k (n + 1) n (by omega) h1 h

theorem natDigits_len_ge2 (n : ℕ) (h : 10 ≤ n) : 2 ≤ (natDigits n).length := by
  unfold natDigits natDigitsAux
  split
  · omega
  · rw [List.length_append]
    have := List.length_pos.mpr (natDigitsAux_ne_nil n (n / 10) (by omega))
    simp
    omega

theorem natOfDigits_pad_natRepr (n w : ℕ) :
    natOfDigits (jsPadStart (natRepr n) w '0') = some n := by
  unfold natOfDigits
  rw [jsPadStart_data]
  have hd : (natRepr n).data = natDigits n := rfl
  rw [hd]
  rw [if_pos]
  · rw [digitsToNat_append]
    rw [digitsToNat_replicate_zero, natDigits_spec]
    simp
  · constructor
    · simp [natDigits_ne_nil n]
    · rw [List.all_append]
      simp only [natDigits_all_digit, Bool.and_true]
      rw [List.all_eq_true]
      intro c hc
      rw [List.eq_of_mem_replicate hc]
      decide

theorem natOfDigits_not_digit (s : String) (c : Char) (hc : c ∈ s.data)
    (hd : c.isDigit = false) : natOfDigits s = none := by
  unfold natOfDigits
  rw [if_neg]
  intro hcon
  have := (List.all_eq_true.mp hcon.2) c hc
  rw [hd] at this
  exact Bool.false_ne_true this

theorem natOfDigits_pad_intRepr (z : ℤ) (w : ℕ) :
    natOfDigits (jsPadStart (intRepr z) w '0') =
      if z < 0 then none else some z.toNat := by
  unfold intRepr
  split
  · apply natOfDigits_not_digit _ '-'
    · rw [jsPadStart_data]
      apply List.mem_append_right
      show '-' ∈ ('-' :: (natRepr z.natAbs).data)
      exact List.mem_cons_self _ _
    · decide
  · exact natOfDigits_pad_natRepr z.toNat w

theorem natOfDigits_pad_jsIntRepr (x : JSInt) (w : ℕ) :
    natOfDigits (jsPadStart (jsIntRepr x) w '0') = jsIntNonneg x := by
  cases x with
  | int z => exact natOfDigits_pad_intRepr z w
  | nan =>
    show natOfDigits (jsPadStart "NaN" w '0') = none
    apply natOfDigits_not_digit _ 'N'
    · rw [jsPadStart_data]
      apply List.mem_append_right
      show 'N' ∈ ['N', 'a', 'N']
      exact List.mem_cons_self _ _
    · decide

/-! The `JSInt` monoid and the row loop. -/

theorem jsAdd_zero_left (a : JSInt) : jsAdd (JSInt.int 0) a = a := by
  cases a <;> simp [jsAdd]

theorem jsAdd_zero_right (a : JSInt) : jsAdd a (JSInt.int 0) = a := by
  cases a <;> simp [jsAdd]

theorem jsAdd_assoc (a b c : JSInt) :
    jsAdd (jsAdd a b) c = jsAdd a (jsAdd b c) := by
  cases a <;> cases b <;> cases c <;> simp [jsAdd, Int.add_assoc]

theorem foldl_jsAdd_shift (l : List JSInt) (t : JSInt) :
    l.foldl jsAdd t = jsAdd t (l.foldl jsAdd (JSInt.int 0)) := by
  induction l generalizing t with
  | nil => simp [jsAdd_zero_right]
  | cons b l ih =>
    simp only [List.foldl_cons]
    rw [ih (jsAdd t b), ih (jsAdd (JSInt.int 0) b), jsAdd_zero_left, jsAdd_assoc]

theorem acceptedPairs_cons (r : Row) (rs : List Row) :
    acceptedPairs (r :: rs) =
      (match generate_detail_record r with
        | .ok (some p) => [p]
        | _ => []) ++ acceptedPairs rs := by
  unfold acceptedPairs
  rw [List.filterMap_cons]
  split
  · next heq =>
    rcases hgen : generate_detail_record r with e | o
    · rfl
    · cases o with
      | none => rfl
      | some p =>
        rw [hgen] at heq
        exact absurd heq (by simp)
  · next p heq =>
    rcases hgen : generate_detail_record r with e | o
    · rw [hgen] at heq; exact absurd heq (by simp)
    · cases o with
      | none => rw [hgen] at heq; exact absurd heq (by simp)
      | some q =>
        rw [hgen] at heq
        simp at heq
        subst heq
        rfl

theorem sumAmounts_cons_skip (r : Row) (rs : List Row)
    (h : generate_detail_record r = .ok none) :
    sumAmounts (r :: rs) = sumAmounts rs ∧
      acceptedRecords (r :: rs) = acceptedRecords rs := by
  unfold sumAmounts acceptedAmounts acceptedRecords
  rw [acceptedPairs_cons, h]
  simp

theorem sumAmounts_cons_take (r : Row) (rs : List Row) (rec : String) (amt : JSInt)
    (h : generate_detail_record r = .ok (some (rec, amt))) :
    sumAmounts (r :: rs) = jsAdd amt (sumAmounts rs) ∧
      acceptedRecords (r :: rs) = rec :: acceptedRecords rs := by
  unfold sumAmounts acceptedAmounts acceptedRecords
  rw [acceptedPairs_cons, h]
  simp only [List.singleton_append, List.map_cons, List.foldl_cons]
  constructor
  · rw [jsAdd_zero_left, foldl_jsAdd_shift]
  · trivial

theorem runRows_ok (rows : List Row) : ∀ (acc res : List String) (t tt : JSInt),
    runRows acc t rows = .ok (res, tt) →
    res = acc ++ acceptedRecords rows ∧ tt = jsAdd t (sumAmounts rows) := by
  induction rows with
  | nil =>
    intro acc res t tt h
    unfold runRows at h
    simp at h
    unfold acceptedRecords acceptedPairs sumAmounts acceptedAmounts
    simp [h.1, h.2, jsAdd_zero_right, acceptedPairs]
  | cons r rs ih =>
    intro acc res t tt h
    unfold runRows at h
    rcases hgen : generate_detail_record r with e | o
    · rw [hgen] at h; exact absurd h (by simp)
    · cases o with
      | none =>
        rw [hgen] at h
        have := ih acc res t tt h
        have hskip := sumAmounts_cons_skip r rs hgen
        rw [hskip.1, hskip.2]
        exact this
      | some p =>
        rw [hgen] at h
        have := ih (acc ++ [p.1]) res (jsAdd t p.2) tt h
        have htake := sumAmounts_cons_take r rs p.1 p.2 (by rw [hgen])
        rw [htake.1, htake.2]
        constructor
        · rw [this.1, List.append_assoc]
          rfl
        · rw [this.2, jsAdd_assoc]

theorem runRows_skipAll (rows : List Row) (acc : List String) (t : JSInt)
    (h : ∀ r ∈ rows, generate_detail_record r = .ok none) :
    runRows acc t rows = .ok (acc, t) := by
  induction rows with
  | nil => rfl
  | cons r rs ih =>
    unfold runRows
    rw [h r (List.mem_cons_self _ _)]
    exact ih (fun r hr => h r (List.mem_cons_of_mem _ hr))

theorem runRows_insert_skip (row : Row) (h : generate_detail_record row = .ok none)
    (ys : List Row) : ∀ (xs : List Row) (acc : List String) (t : JSInt),
    runRows acc t (xs ++ row :: ys) = runRows acc t (xs ++ ys) := by
  intro xs
  induction xs with
  | nil =>
    intro acc t
    rw [List.nil_append, List.nil_append]
    conv_lhs => unfold runRows
    rw [h]
  | cons x xs ih =>
    intro acc t
    show runRows acc t (x :: (xs ++ row :: ys)) = runRows acc t (x :: (xs ++ ys))
    unfold runRows
    rcases hgen : generate_detail_record x with e | o
    · rfl
    · cases o with
      | none => exact ih acc t
      | some p => exact ih (acc ++ [p.1]) (jsAdd t p.2)

/-! Characterizations of the three encoders and of the assembly. -/

theorem detail_invalid (row : Row) (h : rowInvalid row = true) :
    generate_detail_record row = .ok none := by
  unfold generate_detail_record
  rw [if_pos h]

theorem detail_ok_some (row : Row) (rec : String) (amt : JSInt)
    (h : generate_detail_record row = .ok (some (rec, amt))) :
    rowInvalid row = false ∧ rec = detailRecordOf row ∧ amt = detailAmountOf row ∧
      rec.length = 120 := by
  unfold generate_detail_record at h
  split at h
  · exact absurd h (by simp)
  · split at h
    · exact absurd h (by simp)
    · next hv hlen =>
      simp at h
      refine ⟨by simpa using hv, h.1.symm, h.2.symm, ?_⟩
      rw [← h.1]
      simpa [LINE_LENGTH] using hlen

theorem detail_ok_none (row : Row) (h : generate_detail_record row = .ok none) :
    rowInvalid row = true := by
  unfold generate_detail_record at h
  split at h
  · next hv => exact hv
  · split at h
    · exact absurd h (by simp)
    · exact absurd h (by simp)

theorem detail_valid_not_none (row : Row) (h : rowInvalid row = false) :
    detailLengthOk (generate_detail_record row) := by
  unfold generate_detail_record
  rw [if_neg (by rw [h]; exact Bool.false_ne_true)]
  split
  · trivial
  · next hlen =>
    show (detailRecordOf row).length = 120
    simpa [LINE_LENGTH] using hlen

theorem header_ok_cases (today : JSDate) (r : String)
    (h : generate_descriptive_record today = .ok r) :
    r = descriptiveRecordOf today ∧ r.length = 120 := by
  unfold generate_descriptive_record at h
  split at h
  · exact absurd h (by simp)
  · next hlen =>
    simp at h
    refine ⟨h.symm, ?_⟩
    rw [← h]
    simpa [LINE_LENGTH] using hlen

theorem trailer_ok_cases (content : List String) (total : JSInt) (t : String)
    (h : generate_file_total_record content total = .ok t) :
    t = trailerRecordOf content total ∧ t.length = 120 := by
  unfold generate_file_total_record at h
  split at h
  · exact absurd h (by simp)
  · next hlen =>
    simp at h
    refine ⟨h.symm, ?_⟩
    rw [← h]
    simpa [LINE_LENGTH] using hlen

theorem trailer_data (content : List String) (total : JSInt) :
    (trailerRecordOf content total).data =
      ("7999-999" ++ spaces 12).data ++
      ((jsPadStart (jsIntRepr total) 10 '0').data ++
      ((jsPadStart (jsIntRepr total) 10 '0').data ++
      ((zeros 10 ++ spaces 24).data ++
      ((jsPadStart (intRepr ((content.length : ℤ) - 1)) 6 '0').data ++
      (spaces 40).data)))) := by
  unfold trailerRecordOf RecordTypes.FIELD_TOTAL
  simp [List.append_assoc]

theorem trailer_fields (content : List String) (total : JSInt) (t : String)
    (h : generate_file_total_record content total = .ok t) :
    strSlice t 20 30 = jsPadStart (jsIntRepr total) 10 '0' ∧
    strSlice t 30 40 = jsPadStart (jsIntRepr total) 10 '0' ∧
    strSlice t 40 50 = zeros 10 ∧
    strSlice t 74 80 = jsPadStart (intRepr ((content.length : ℤ) - 1)) 6 '0' := by
  obtain ⟨ht, hlen⟩ := trailer_ok_cases content total t h
  set netP := jsPadStart (jsIntRepr total) 10 '0' with hnet
  set cntP := jsPadStart (intRepr ((content.length : ℤ) - 1)) 6 '0' with hcnt
  have hnetlen : 10 ≤ netP.length := by
    rw [hnet, jsPadStart_length]; omega
  have hcntlen : 6 ≤ cntP.length := by
    rw [hcnt, jsPadStart_length]; omega
  have hdata : t.data = (("7999-999" ++ spaces 12)).data ++
      (netP.data ++ (netP.data ++ ((zeros 10 ++ spaces 24).data ++
      (cntP.data ++ (spaces 40).data)))) := by
    rw [ht]
    exact trailer_data content total
  have hpre : (("7999-999" ++ spaces 12) : String).data.length = 20 := rfl
  have hmid : ((zeros 10 ++ spaces 24) : String).data.length = 34 := rfl
  have hend : (spaces 40).data.length = 40 := rfl
  have hlen' : t.data.length = 120 := hlen
  rw [hdata] at hlen'
  simp only [List.length_append, hpre, hmid, hend, ← length_eq_data] at hlen'
  have hnet10 : netP.length = 10 := by omega
  have hcnt6 : cntP.length = 6 := by omega
  have hnetd : netP.data.length = 10 := hnet10
  have hcntd : cntP.data.length = 6 := hcnt6
  refine ⟨?_, ?_, ?_, ?_⟩
  · exact slice_parts t (("7999-999" ++ spaces 12).data) netP.data _ 20 10
      hdata hpre hnetd
  · refine slice_parts t (("7999-999" ++ spaces 12).data ++ netP.data) netP.data
      ((zeros 10 ++ spaces 24).data ++ (cntP.data ++ (spaces 40).data)) 30 10
      ?_ ?_ hnetd
    · rw [hdata, List.append_assoc]
    · rw [List.length_append, hpre, hnetd]
  · refine slice_parts t ((("7999-999" ++ spaces 12).data ++ netP.data) ++ netP.data)
      (zeros 10).data ((spaces 24).data ++ (cntP.data ++ (spaces 40).data)) 40 10
      ?_ ?_ (by rfl)
    · rw [hdata]
      have hz : ((zeros 10 ++ spaces 24) : String).data =
          (zeros 10).data ++ (spaces 24).data := by simp
      rw [hz]
      simp only [List.append_assoc]
    · rw [List.length_append, List.length_append, hpre, hnetd]
  · refine slice_parts t
      ((("7999-999" ++ spaces 12).data ++ netP.data) ++ netP.data ++
        (zeros 10 ++ spaces 24).data)
      cntP.data ((spaces 40).data) 74 6 ?_ ?_ hcntd
    · rw [hdata]
      simp only [List.append_assoc]
    · rw [List.length_append, List.length_append, List.length_append,
        hpre, hnetd, hmid]

theorem abaLines_ok (rows : List Row) (d : JSDate) (ls : List String)
    (h : abaLines rows d = .ok ls) :
    generate_descriptive_record d = .ok (descriptiveRecordOf d) ∧
    generate_file_total_record (descriptiveRecordOf d :: acceptedRecords rows)
      (sumAmounts rows) =
      .ok (trailerRecordOf (descriptiveRecordOf d :: acceptedRecords rows) (sumAmounts rows)) ∧
    ls = descriptiveRecordOf d :: acceptedRecords rows ++
      [trailerRecordOf (descriptiveRecordOf d :: acceptedRecords rows) (sumAmounts rows)] := by
  unfold abaLines at h
  rcases hh : generate_descriptive_record d with e | h0
  · rw [hh] at h
    exact absurd h (by simp)
  · rw [hh] at h
    dsimp only at h
    obtain ⟨hh0, _⟩ := header_ok_cases d h0 hh
    subst hh0
    rcases hr : runRows [descriptiveRecordOf d] (JSInt.int 0) rows with e | p
    · rw [hr] at h
      exact absurd h (by simp)
    · rw [hr] at h
      dsimp only at h
      obtain ⟨hres, htot⟩ := runRows_ok rows [descriptiveRecordOf d] p.1 (JSInt.int 0) p.2
        (by rw [hr])
      rw [jsAdd_zero_left] at htot
      have hcontent : p.1 = descriptiveRecordOf d :: acceptedRecords rows := hres
      rcases htr : generate_file_total_record p.1 p.2 with e | t
      · rw [htr] at h
        exact absurd h (by simp)
      · rw [htr] at h
        dsimp only at h
        simp at h
        obtain ⟨htt, _⟩ := trailer_ok_cases p.1 p.2 t htr
        rw [hcontent, htot] at htr htt
        refine ⟨rfl, ?_, ?_⟩
        · rw [htr, htt]
        · rw [← h, hcontent, htt]

theorem process_of_lines (rows : List Row) (d : JSDate) (ls : List String)
    (h : abaLines rows d = .ok ls) :
    processCsvToAba rows d = .ok (String.intercalate "\n" ls ++ "\n") := by
  unfold processCsvToAba
  rw [h]

theorem process_ok_lines (rows : List Row) (d : JSDate) (doc : String)
    (h : processCsvToAba rows d = .ok doc) :
    abaLines rows d = .ok (descriptiveRecordOf d :: acceptedRecords rows ++
      [trailerRecordOf (descriptiveRecordOf d :: acceptedRecords rows) (sumAmounts rows)]) ∧
    doc = String.intercalate "\n" (descriptiveRecordOf d :: acceptedRecords rows ++
      [trailerRecordOf (descriptiveRecordOf d :: acceptedRecords rows) (sumAmounts rows)]) ++
      "\n" := by
  unfold processCsvToAba at h
  rcases hl : abaLines rows d with e | ls
  · rw [hl] at h
    exact absurd h (by simp)
  · rw [hl] at h
    dsimp only at h
    simp at h
    obtain ⟨_, _, hls⟩ := abaLines_ok rows d ls hl
    subst hls
    exact ⟨rfl, h.symm⟩

theorem header_length (today : JSDate) (hd : today.day < 100)
    (hm : today.monthIdx + 1 < 100) (hy : 10 ≤ today.year) :
    (descriptiveRecordOf today).length = 120 ∧
    generate_descriptive_record today = .ok (descriptiveRecordOf today) := by
  have hdayLen : (natRepr today.day).length ≤ 2 := by
    show (natDigits today.day).length ≤ 2
    exact natDigits_len_le 2 today.day (by omega) (by norm_num; omega)
  have hmonLen : (natRepr (today.monthIdx + 1)).length ≤ 2 := by
    show (natDigits (today.monthIdx + 1)).length ≤ 2
    exact natDigits_len_le 2 (today.monthIdx + 1) (by omega) (by norm_num; omega)
  have hyearLen : 2 ≤ (natRepr today.year).length := by
    show 2 ≤ (natDigits today.year).length
    exact natDigits_len_ge2 today.year hy
  have hpd : (processDateOf today).length = 6 := by
    have h1 : (jsPadStart (natRepr today.day) 2 '0').length = 2 := by
      rw [jsPadStart_length]
      omega
    have h2 : (jsPadStart (natRepr (today.monthIdx + 1)) 2 '0').length = 2 := by
      rw [jsPadStart_length]
      omega
    have h3 : (sliceLast2 (natRepr today.year)).length = 2 := by
      show (List.drop ((natRepr today.year).data.length - 2) (natRepr today.year).data).length = 2
      rw [List.length_drop]
      have hy2 : 2 ≤ (natRepr today.year).data.length := hyearLen
      omega
    unfold processDateOf
    rw [String.length_append, String.length_append, h1, h2, h3]
  have hlen : (descriptiveRecordOf today).length = 120 := by
    unfold descriptiveRecordOf RecordTypes.DESCRIPTIVE
    simp only [String.length_append]
    rw [hpd]
    rfl
  refine ⟨hlen, ?_⟩
  unfold generate_descriptive_record
  rw [if_neg]
  simp [hlen, LINE_LENGTH]

/-! Facts about the character-level parsing helpers, used for the amount
normalization claims. -/

theorem digit_ne (c x : Char) (h : c.isDigit = true) (hx : x.isDigit = false) :
    c ≠ x := by
  intro hcon
  rw [hcon, hx] at h
  exact Bool.false_ne_true h

theorem digit_not_ws (c : Char) (h : c.isDigit = true) :
    isJsWhitespace c = false := by
  rcases hw : isJsWhitespace c with _ | _
  · rfl
  · unfold isJsWhitespace at hw
    simp only [Bool.or_eq_true, decide_eq_true_eq] at hw
    rcases hw with ((((((e | e) | e) | e) | e) | e) | e) <;> subst e <;> simp at h

theorem takeWhile_append_all (p : Char → Bool) (xs ys : List Char)
    (h : xs.all p = true) : (xs ++ ys).takeWhile p = xs ++ ys.takeWhile p := by
  induction xs with
  | nil => simp
  | cons a t ih =>
    rw [List.all_cons, Bool.and_eq_true] at h
    simp [List.takeWhile_cons, h.1, ih h.2]

theorem dropWhile_append_all (p : Char → Bool) (xs ys : List Char)
    (h : xs.all p = true) : (xs ++ ys).dropWhile p = ys.dropWhile p := by
  induction xs with
  | nil => simp
  | cons a t ih =>
    rw [List.all_cons, Bool.and_eq_true] at h
    simp [List.dropWhile_cons, h.1, ih h.2]

theorem takeWhile_all (p : Char → Bool) (xs : List Char) (h : xs.all p = true) :
    xs.takeWhile p = xs := by
  have := takeWhile_append_all p xs [] h
  simpa using this

theorem dropWhile_all (p : Char → Bool) (xs : List Char) (h : xs.all p = true) :
    xs.dropWhile p = [] := by
  have := dropWhile_append_all p xs [] h
  simpa using this

theorem dropWhile_cons_false (p : Char → Bool) (a : Char) (l : List Char)
    (h : p a = false) : (a :: l).dropWhile p = a :: l := by
  simp [List.dropWhile_cons, h]

theorem removeFirstChar_head (l : List Char) (c : Char) :
    removeFirstChar (c :: l) c = l := by
  unfold removeFirstChar
  simp

theorem removeFirstChar_not_mem (xs : List Char) (c : Char) (h : ∀ x ∈ xs, x ≠ c) :
    ∀ ys : List Char, removeFirstChar (xs ++ c :: ys) c = xs ++ ys := by
  induction xs with
  | nil =>
    intro ys
    simp [removeFirstChar_head]
  | cons a t ih =>
    intro ys
    show removeFirstChar (a :: (t ++ c :: ys)) c = _
    unfold removeFirstChar
    rw [if_neg (h a (List.mem_cons_self _ _))]
    rw [ih (fun x hx => h x (List.mem_cons_of_mem _ hx)) ys]
    rfl

theorem jsTrim_no_ws (l : List Char) (h : ∀ c ∈ l, isJsWhitespace c = false) :
    jsTrim (String.mk l) = String.mk l := by
  unfold jsTrim
  rw [mk_data]
  have h1 : l.dropWhile isJsWhitespace = l := by
    cases l with
    | nil => rfl
    | cons a t => exact dropWhile_cons_false _ a t (h a (List.mem_cons_self _ _))
  rw [h1]
  have h2 : l.reverse.dropWhile isJsWhitespace = l.reverse := by
    cases hr : l.reverse with
    | nil => rfl
    | cons a t =>
      refine dropWhile_cons_false _ a t (h a ?_)
      rw [← List.mem_reverse, hr]
      exact List.mem_cons_self _ _
  rw [h2, List.reverse_reverse]

theorem splitSign_digit (a : Char) (l : List Char) (h : a.isDigit = true) :
    splitSign (a :: l) = (1, a :: l) := by
  show (if a = '-' then ((-1 : ℤ), l) else if a = '+' then ((1 : ℤ), l)
    else ((1 : ℤ), a :: l)) = (1, a :: l)
  rw [if_neg (digit_ne a '-' h (by decide)), if_neg (digit_ne a '+' h (by decide))]

theorem fracSplit_dot (C : List Char) :
    fracSplit ('.' :: C) = (C.takeWhile Char.isDigit, C.dropWhile Char.isDigit) := by
  show (if ('.' : Char) = '.' then (C.takeWhile Char.isDigit, C.dropWhile Char.isDigit)
    else ([], '.' :: C)) = _
  rw [if_pos rfl]

theorem expPart_nil : expPart [] = 0 := rfl

theorem jsParseFloat_digits (A C : List Char) (hA : A ≠ [])
    (hAd : A.all Char.isDigit = true) (hCd : C.all Char.isDigit = true) :
    jsParseFloat (String.mk (A ++ '.' :: C)) =
      some ⟨(digitsToNat (A ++ C) : ℤ), -(C.length : ℤ)⟩ := by
  obtain ⟨a, A', rfl⟩ : ∃ a A', A = a :: A' := by
    cases A with
    | nil => exact absurd rfl hA
    | cons a t => exact ⟨a, t, rfl⟩
  have hahd : a.isDigit = true := by
    rw [List.all_cons, Bool.and_eq_true] at hAd
    exact hAd.1
  unfold jsParseFloat
  rw [mk_data]
  simp only [List.cons_append]
  have hws : (a :: (A' ++ '.' :: C)).dropWhile isJsWhitespace = a :: (A' ++ '.' :: C) :=
    dropWhile_cons_false _ a _ (digit_not_ws a hahd)
  rw [hws, splitSign_digit a _ hahd]
  have htw : (a :: (A' ++ '.' :: C)).takeWhile Char.isDigit = a :: A' := by
    have h0 := takeWhile_append_all Char.isDigit (a :: A') ('.' :: C) hAd
    simp only [List.cons_append] at h0
    rw [h0, show ('.' :: C).takeWhile Char.isDigit = [] from by simp [List.takeWhile_cons],
      List.append_nil]
  have hdw : (a :: (A' ++ '.' :: C)).dropWhile Char.isDigit = '.' :: C := by
    have h0 := dropWhile_append_all Char.isDigit (a :: A') ('.' :: C) hAd
    simp only [List.cons_append] at h0
    rw [h0]
    exact dropWhile_cons_false _ '.' C (by decide)
  dsimp only
  rw [htw, hdw, fracSplit_dot, takeWhile_all _ C hCd, dropWhile_all _ C hCd]
  unfold pfAssemble
  dsimp only
  rw [if_neg (by simp)]
  rw [expPart_nil, one_mul, zero_sub]
  simp only [List.cons_append]

theorem jsRoundDec_zero_exp (m : ℤ) : jsRoundDec ⟨m, 0⟩ = m := by
  unfold jsRoundDec
  rw [if_pos (le_refl 0)]
  show m * pow10 (Int.toNat 0) = m
  rw [show Int.toNat 0 = 0 from rfl, show pow10 0 = 1 from rfl, mul_one]

theorem intRepr_natCast (n : ℕ) : intRepr (n : ℤ) = natRepr n := by
  unfold intRepr
  rw [if_neg (by omega)]
  exact congrArg natRepr (by omega)

theorem acceptedPairs_append (xs ys : List Row) :
    acceptedPairs (xs ++ ys) = acceptedPairs xs ++ acceptedPairs ys := by
  unfold acceptedPairs
  exact List.filterMap_append _ _ _

theorem sumAmounts_of_no_records (rows : List Row) (h : acceptedRecords rows = []) :
    sumAmounts rows = JSInt.int 0 := by
  unfold acceptedRecords at h
  have hp : acceptedPairs rows = [] := List.map_eq_nil_iff.mp h
  unfold sumAmounts acceptedAmounts
  rw [hp]
  rfl

theorem detail_data (row : Row) :
    (detailRecordOf row).data =
      ("1" : String).data ++
      ((jsTrim (row.BSB.getD "")).data ++
      ((jsPadStart (jsTrim (row.Account.getD "")) 9 ' ').data ++
      ((" " : String).data ++
      (("53" : String).data ++
      ((jsPadStart (jsIntRepr (detailAmountOf row)) 10 '0').data ++
      ((jsPadEnd (jsTrim (row.Name.getD "")) 32 ' ').data ++
      ((jsPadEnd (jsTrim (row.Reference.getD "")) 18 ' ').data ++
      ((jsTrim (row.BSB.getD "")).data ++
      ((jsPadStart (jsTrim (row.Account.getD "")) 9 ' ').data ++
      ((jsPadEnd "Meya" 16 ' ').data ++ (zeros 8).data)))))))))) := by
  unfold detailRecordOf RecordTypes.DETAIL
  simp [List.append_assoc]

set_option maxHeartbeats 1000000 in
theorem detail_amount_field (row : Row)
    (hB : (jsTrim (row.BSB.getD "")).length = 7)
    (hA : (jsTrim (row.Account.getD "")).length ≤ 9)
    (hM : (jsIntRepr (detailAmountOf row)).length ≤ 10) :
    strSlice (detailRecordOf row) 20 30 =
      jsPadStart (jsIntRepr (detailAmountOf row)) 10 '0' := by
  have haccd : (jsPadStart (jsTrim (row.Account.getD "")) 9 ' ').data.length = 9 := by
    show (jsPadStart (jsTrim (row.Account.getD "")) 9 ' ').length = 9
    rw [jsPadStart_length]
    omega
  have hamtd : (jsPadStart (jsIntRepr (detailAmountOf row)) 10 '0').data.length = 10 := by
    show (jsPadStart (jsIntRepr (detailAmountOf row)) 10 '0').length = 10
    rw [jsPadStart_length]
    omega
  have hp : (("1" : String).data ++
      ((jsTrim (row.BSB.getD "")).data ++
      ((jsPadStart (jsTrim (row.Account.getD "")) 9 ' ').data ++
      ((" " : String).data ++ ("53" : String).data)))).length = 20 := by
    simp only [List.length_append]
    have hb : (jsTrim (row.BSB.getD "")).data.length = 7 := hB
    rw [hb, haccd]
    rfl
  have hs : (detailRecordOf row).data =
      (("1" : String).data ++
        ((jsTrim (row.BSB.getD "")).data ++
        ((jsPadStart (jsTrim (row.Account.getD "")) 9 ' ').data ++
        ((" " : String).data ++ ("53" : String).data)))) ++
      ((jsPadStart (jsIntRepr (detailAmountOf row)) 10 '0').data ++
      ((jsPadEnd (jsTrim (row.Name.getD "")) 32 ' ').data ++
      ((jsPadEnd (jsTrim (row.Reference.getD "")) 18 ' ').data ++
      ((jsTrim (row.BSB.getD "")).data ++
      ((jsPadStart (jsTrim (row.Account.getD "")) 9 ' ').data ++
      ((jsPadEnd "Meya" 16 ' ').data ++ (zeros 8).data)))))) := by
    rw [detail_data]
    simp only [List.append_assoc]
  exact slice_parts (detailRecordOf row)
    (("1" : String).data ++
      ((jsTrim (row.BSB.getD "")).data ++
      ((jsPadStart (jsTrim (row.Account.getD "")) 9 ' ').data ++
      ((" " : String).data ++ ("53" : String).data))))
    ((jsPadStart (jsIntRepr (detailAmountOf row)) 10 '0').data)
    ((jsPadEnd (jsTrim (row.Name.getD "")) 32 ' ').data ++
      ((jsPadEnd (jsTrim (row.Reference.getD "")) 18 ' ').data ++
      ((jsTrim (row.BSB.getD "")).data ++
      ((jsPadStart (jsTrim (row.Account.getD "")) 9 ' ').data ++
      ((jsPadEnd "Meya" 16 ' ').data ++ (zeros 8).data)))))
    20 10 hs hp hamtd

theorem amountStr_dollar_comma (A B C : List Char)
    (hAd : A.all Char.isDigit = true) (hBd : B.all Char.isDigit = true)
    (hCd : C.all Char.isDigit = true) :
    jsTrim (jsRemoveFirst (jsRemoveFirst
        (String.mk ('$' :: (A ++ ',' :: (B ++ '.' :: C)))) '$') ',') =
      String.mk ((A ++ B) ++ '.' :: C) := by
  have h1 : jsRemoveFirst (String.mk ('$' :: (A ++ ',' :: (B ++ '.' :: C)))) '$' =
      String.mk (A ++ ',' :: (B ++ '.' :: C)) := by
    unfold jsRemoveFirst
    rw [mk_data, removeFirstChar_head]
  rw [h1]
  have h2 : jsRemoveFirst (String.mk (A ++ ',' :: (B ++ '.' :: C))) ',' =
      String.mk (A ++ (B ++ '.' :: C)) := by
    unfold jsRemoveFirst
    rw [mk_data]
    rw [removeFirstChar_not_mem A ','
      (fun x hx => digit_ne x ',' (List.all_eq_true.mp hAd x hx) (by decide)) _]
  rw [h2]
  have h3 : ∀ c ∈ A ++ (B ++ '.' :: C), isJsWhitespace c = false := by
    intro c hc
    rcases List.mem_append.mp hc with hc | hc
    · exact digit_not_ws c (List.all_eq_true.mp hAd c hc)
    · rcases List.mem_append.mp hc with hc | hc
      · exact digit_not_ws c (List.all_eq_true.mp hBd c hc)
      · rcases List.mem_cons.mp hc with hc | hc
        · subst hc
          decide
        · exact digit_not_ws c (List.all_eq_true.mp hCd c hc)
  rw [jsTrim_no_ws _ h3]
  rw [List.append_assoc]

theorem detailAmount_eq_amended (row : Row) (s : String) (hAmt : row.Amount = some s) :
    detailAmountOf row = amendedMinorUnits s := by
  unfold detailAmountOf amendedMinorUnits amountStrOf
  rw [hAmt]
  rfl

theorem getLast_cons_concat (x y : String) (l : List String) :
    (x :: (l ++ [y])).getLast? = some y := by
  rw [← List.cons_append]
  exact List.getLast?_concat _

/-! The claims. -/

/-- Claim C1: in every assembled document, the trailer record's net-total
field (chars 21-30) equals its credit-total field (chars 31-40), the
debit-total field (chars 41-50) is all zeros, and both net and credit
totals equal the arithmetic sum of the minor-unit amounts of all accepted
detail records. -/
theorem c1_trailer_totals (rows : List Row) (d : JSDate) (ls : List String) (t : String)
    (h1 : abaLines rows d = .ok ls) (h2 : ls.getLast? = some t) :
    processCsvToAba rows d = .ok (String.intercalate "\n" ls ++ "\n") ∧
    strSlice t 20 30 = strSlice t 30 40 ∧
    strSlice t 40 50 = "0000000000" ∧
    strSlice t 20 30 = jsPadStart (jsIntRepr (sumAmounts rows)) 10 '0' ∧
    natOfDigits (strSlice t 20 30) = jsIntNonneg (sumAmounts rows) := by
  obtain ⟨hh, htr, hls⟩ := abaLines_ok rows d ls h1
  have hlast : ls.getLast? = some (trailerRecordOf
      (descriptiveRecordOf d :: acceptedRecords rows) (sumAmounts rows)) := by
    rw [hls]
    exact getLast_cons_concat _ _ _
  rw [hlast] at h2
  have ht : t = trailerRecordOf (descriptiveRecordOf d :: acceptedRecords rows)
      (sumAmounts rows) := (Option.some_inj.mp h2).symm
  obtain ⟨f1, f2, f3, f4⟩ := trailer_fields _ _ _ htr
  refine ⟨process_of_lines rows d ls h1, ?_, ?_, ?_, ?_⟩
  · rw [ht, f1, f2]
  · rw [ht, f3]
    rfl
  · rw [ht, f1]
  · rw [ht, f1]
    exact natOfDigits_pad_jsIntRepr (sumAmounts rows) 10

/-- Claim C1 witness at the one-row table built from the spec's example
row. -/
theorem c1_trailer_totals_witness :
    processCsvToAba [row6] d0 = .ok (String.intercalate "\n" lines6 ++ "\n") ∧
    strSlice trailer6 20 30 = strSlice trailer6 30 40 ∧
    strSlice trailer6 40 50 = "0000000000" ∧
    strSlice trailer6 20 30 = jsPadStart (jsIntRepr (sumAmounts [row6])) 10 '0' ∧
    natOfDigits (strSlice trailer6 20 30) = jsIntNonneg (sumAmounts [row6]) :=
  c1_trailer_totals [row6] d0 lines6 trailer6 rfl rfl

/-- Claim C2: in every assembled document, the trailer record's 6-digit
record-count field (chars 75-80) equals the number of accepted detail
records actually present in the document, not the number of input rows. -/
theorem c2_trailer_count (rows : List Row) (d : JSDate) (ls : List String) (t : String)
    (h1 : abaLines rows d = .ok ls) (h2 : ls.getLast? = some t) :
    ls = descriptiveRecordOf d :: acceptedRecords rows ++ [t] ∧
    strSlice t 74 80 = jsPadStart (natRepr (acceptedRecords rows).length) 6 '0' ∧
    natOfDigits (strSlice t 74 80) = some (acceptedRecords rows).length := by
  obtain ⟨hh, htr, hls⟩ := abaLines_ok rows d ls h1
  have hlast : ls.getLast? = some (trailerRecordOf
      (descriptiveRecordOf d :: acceptedRecords rows) (sumAmounts rows)) := by
    rw [hls]
    exact getLast_cons_concat _ _ _
  rw [hlast] at h2
  have ht : t = trailerRecordOf (descriptiveRecordOf d :: acceptedRecords rows)
      (sumAmounts rows) := (Option.some_inj.mp h2).symm
  obtain ⟨f1, f2, f3, f4⟩ := trailer_fields _ _ _ htr
  have hcount : (((descriptiveRecordOf d :: acceptedRecords rows).length : ℤ) - 1) =
      ((acceptedRecords rows).length : ℤ) := by
    rw [List.length_cons]
    push_cast
    ring
  rw [hcount, intRepr_natCast] at f4
  refine ⟨by rw [hls, ht], ?_, ?_⟩
  · rw [ht, f4]
  · rw [ht, f4]
    exact natOfDigits_pad_natRepr (acceptedRecords rows).length 6

/-- Claim C2 witness at the one-row table built from the spec's example
row. -/
theorem c2_trailer_count_witness :
    lines6 = descriptiveRecordOf d0 :: acceptedRecords [row6] ++ [trailer6] ∧
    strSlice trailer6 74 80 = jsPadStart (natRepr (acceptedRecords [row6]).length) 6 '0' ∧
    natOfDigits (strSlice trailer6 74 80) = some (acceptedRecords [row6]).length :=
  c2_trailer_count [row6] d0 lines6 trailer6 rfl rfl

/-- Claim C3: a row in which any of the five required fields is missing,
blank or whitespace-only is rejected by the detail encoder with an
absent/absent result, and inserting such a row anywhere in the input
changes nothing: not the accepted records, not the running total, and not
the assembled document. -/
theorem c3_invalid_row_skipped (row : Row) (xs ys : List Row) (d : JSDate)
    (h : rowInvalid row = true) :
    generate_detail_record row = .ok none ∧
    acceptedRecords (xs ++ row :: ys) = acceptedRecords (xs ++ ys) ∧
    sumAmounts (xs ++ row :: ys) = sumAmounts (xs ++ ys) ∧
    processCsvToAba (xs ++ row :: ys) d = processCsvToAba (xs ++ ys) d := by
  have hskip := detail_invalid row h
  have hpairs : acceptedPairs (xs ++ row :: ys) = acceptedPairs (xs ++ ys) := by
    rw [acceptedPairs_append, acceptedPairs_append, acceptedPairs_cons, hskip]
    rfl
  refine ⟨hskip, ?_, ?_, ?_⟩
  · unfold acceptedRecords
    rw [hpairs]
  · unfold sumAmounts acceptedAmounts
    rw [hpairs]
  · unfold processCsvToAba abaLines
    rcases hh : generate_descriptive_record d with e | h0
    · rfl
    · dsimp only
      rw [runRows_insert_skip row hskip ys xs [h0] (JSInt.int 0)]

/-- Claim C3 witness: a blank trailing row after the example row changes
nothing. -/
theorem c3_invalid_row_skipped_witness :
    generate_detail_record blankRow = .ok none ∧
    acceptedRecords ([row6] ++ blankRow :: []) = acceptedRecords ([row6] ++ []) ∧
    sumAmounts ([row6] ++ blankRow :: []) = sumAmounts ([row6] ++ []) ∧
    processCsvToAba ([row6] ++ blankRow :: []) d0 = processCsvToAba ([row6] ++ []) d0 :=
  c3_invalid_row_skipped blankRow [row6] [] d0 rfl

/-- Claim C4 counterexample: the row with the one-character BSB "1" is
valid (all five fields non-blank), yet the detail encoder does not return
a record at all; it throws its length assertion, because the BSB is used
verbatim and the assembled record has 108 characters. -/
theorem c4_length_counterexample :
    rowInvalid row4 = false ∧
    generate_detail_record row4 =
      .error "Assertion failed: Detail record length is 108, expected 120" :=
  ⟨rfl, rfl⟩

/-- Claim C4 amended: for every valid row, the detail encoder either
throws its length assertion or returns a record of length exactly 120; it
never skips a valid row, and any record it returns has the contractual
length. -/
theorem c4_amended_length (row : Row) (hv : rowInvalid row = false) :
    detailLengthOk (generate_detail_record row) :=
  detail_valid_not_none row hv

/-- Claim C4 amended witness at the spec's example row. -/
theorem c4_amended_length_witness :
    rowInvalid row6 = false ∧ detailLengthOk (generate_detail_record row6) :=
  ⟨rfl, c4_amended_length row6 rfl⟩

/-- Claim C5 counterexample: on the amount "$1,234,567.89" the encoder
produces 123400 minor units, because JS `replace` removes only the first
comma and `parseFloat` stops at the second one, while the claimed
normalization (strip the symbol and all commas) yields the exact cent
value 123456789. -/
theorem c5_comma_counterexample :
    generate_detail_record row5 = .ok (some (detailRecordOf row5, JSInt.int 123400)) ∧
    specMinorUnits "$1,234,567.89" = JSInt.int 123456789 ∧
    JSInt.int 123400 ≠ JSInt.int 123456789 :=
  ⟨rfl, rfl, by decide⟩

/-- Claim C5 amended: currency normalization removes only the first
dollar sign and the first comma before trimming, parsing, multiplying by
100 and rounding; consequently an amount written with a single
thousands-separator comma, "$A,B.CC" with digit groups A, B and a
two-digit fraction CC, is converted to its exact cent value, while any
further commas truncate the parsed number. -/
theorem c5_amended_normalization (row : Row) (rec : String) (amt : JSInt)
    (A B C : List Char)
    (h : generate_detail_record row = .ok (some (rec, amt)))
    (hAmt : row.Amount = some (String.mk ('$' :: (A ++ ',' :: (B ++ '.' :: C)))))
    (hAd : A.all Char.isDigit = true) (hBd : B.all Char.isDigit = true)
    (hCd : C.all Char.isDigit = true) (hAne : A ≠ []) (hC2 : C.length = 2) :
    amt = amendedMinorUnits (String.mk ('$' :: (A ++ ',' :: (B ++ '.' :: C)))) ∧
    amt = JSInt.int ((digitsToNat (A ++ B) * 100 + digitsToNat C : ℕ) : ℤ) := by
  obtain ⟨hv, hrec, hamt, hlen⟩ := detail_ok_some row rec amt h
  have heq := detailAmount_eq_amended row _ hAmt
  have hamt2 : detailAmountOf row =
      JSInt.int ((digitsToNat (A ++ B) * 100 + digitsToNat C : ℕ) : ℤ) := by
    unfold detailAmountOf amountStrOf
    rw [hAmt]
    rw [show (some (String.mk ('$' :: (A ++ ',' :: (B ++ '.' :: C))))).getD "" =
      String.mk ('$' :: (A ++ ',' :: (B ++ '.' :: C))) from rfl]
    rw [amountStr_dollar_comma A B C hAd hBd hCd]
    have hABne : (A ++ B) ≠ [] := by
      intro hcon
      exact hAne (List.append_eq_nil.mp hcon).1
    have hABd : (A ++ B).all Char.isDigit = true := by
      rw [List.all_append, hAd, hBd]
      rfl
    rw [jsParseFloat_digits (A ++ B) C hABne hABd hCd]
    rw [hC2]
    have hexp : (-((2 : ℕ) : ℤ) + 2) = 0 := by norm_num
    show JSInt.int (jsRoundDec ⟨(digitsToNat ((A ++ B) ++ C) : ℤ), -((2 : ℕ) : ℤ) + 2⟩) = _
    rw [hexp, jsRoundDec_zero_exp]
    rw [digitsToNat_append (A ++ B) C, hC2]
    norm_num
  exact ⟨by rw [hamt, heq], by rw [hamt, hamt2]⟩

/-- Claim C5 amended witness at the amount "$1,234.56". -/
theorem c5_amended_normalization_witness :
    JSInt.int 123456 =
      amendedMinorUnits (String.mk ('$' :: (['1'] ++ ',' :: (['2', '3', '4'] ++ '.' :: ['5', '6'])))) ∧
    JSInt.int 123456 =
      JSInt.int ((digitsToNat (['1'] ++ ['2', '3', '4']) * 100 + digitsToNat ['5', '6'] : ℕ) : ℤ) :=
  c5_amended_normalization row6 (detailRecordOf row6) (JSInt.int 123456)
    ['1'] ['2', '3', '4'] ['5', '6'] rfl rfl rfl rfl rfl (by decide) rfl

/-- Claim C6: encoding a row whose amount is "$1,234.56" yields the
minor-unit value 123456 and a detail record whose amount field
(chars 21-30) is "0000123456". -/
theorem c6_amount_round_trip :
    generate_detail_record row6 = .ok (some (detailRecordOf row6, JSInt.int 123456)) ∧
    strSlice (detailRecordOf row6) 20 30 = "0000123456" :=
  ⟨rfl, rfl⟩

/-- Claim C7: every assembled document is exactly one header record, one
detail record per accepted row in input order, and one trailer record,
joined by single newlines with one trailing newline; with zero accepted
rows it is header plus trailer only, the trailer counting "000000" and
totalling "0000000000". -/
theorem c7_document_layout (rows : List Row) (d : JSDate) (doc : String)
    (h : processCsvToAba rows d = .ok doc) :
    doc = String.intercalate "\n" (descriptiveRecordOf d :: acceptedRecords rows ++
      [trailerRecordOf (descriptiveRecordOf d :: acceptedRecords rows) (sumAmounts rows)]) ++
      "\n" ∧
    (acceptedRecords rows = [] →
      doc = String.intercalate "\n" [descriptiveRecordOf d,
        trailerRecordOf [descriptiveRecordOf d] (JSInt.int 0)] ++ "\n" ∧
      strSlice (trailerRecordOf [descriptiveRecordOf d] (JSInt.int 0)) 74 80 = "000000" ∧
      strSlice (trailerRecordOf [descriptiveRecordOf d] (JSInt.int 0)) 20 30 = "0000000000" ∧
      strSlice (trailerRecordOf [descriptiveRecordOf d] (JSInt.int 0)) 30 40 = "0000000000" ∧
      strSlice (trailerRecordOf [descriptiveRecordOf d] (JSInt.int 0)) 40 50 = "0000000000") := by
  obtain ⟨hlines, hdoc⟩ := process_ok_lines rows d doc h
  refine ⟨hdoc, ?_⟩
  intro hacc
  have hsum := sumAmounts_of_no_records rows hacc
  rw [hdoc, hacc, hsum]
  exact ⟨rfl, rfl, rfl, rfl, rfl⟩

/-- Claim C7 witness at the empty table. -/
theorem c7_document_layout_witness :
    String.intercalate "\n" lines0 ++ "\n" =
      String.intercalate "\n" (descriptiveRecordOf d0 :: acceptedRecords [] ++
        [trailerRecordOf (descriptiveRecordOf d0 :: acceptedRecords [])
          (sumAmounts [])]) ++ "\n" ∧
    (acceptedRecords ([] : List Row) = [] →
      String.intercalate "\n" lines0 ++ "\n" =
        String.intercalate "\n" [descriptiveRecordOf d0,
          trailerRecordOf [descriptiveRecordOf d0] (JSInt.int 0)] ++ "\n" ∧
      strSlice (trailerRecordOf [descriptiveRecordOf d0] (JSInt.int 0)) 74 80 = "000000" ∧
      strSlice (trailerRecordOf [descriptiveRecordOf d0] (JSInt.int 0)) 20 30 = "0000000000" ∧
      strSlice (trailerRecordOf [descriptiveRecordOf d0] (JSInt.int 0)) 30 40 = "0000000000" ∧
      strSlice (trailerRecordOf [descriptiveRecordOf d0] (JSInt.int 0)) 40 50 = "0000000000") :=
  c7_document_layout [] d0 (String.intercalate "\n" lines0 ++ "\n") rfl

/-- Claim C8 counterexample: for the non-negative minor-unit total
10000000000 (eleven digits) the trailer encoder does not return a record
at all; its length assertion throws, because the total overflows its
ten-character box and the assembled record has 122 characters. -/
theorem c8_trailer_counterexample :
    generate_file_total_record ["h"] (JSInt.int 10000000000) =
      .error "Assertion failed: Trailer record length is 122, expected 120" :=
  rfl

/-- Claim C8 amended: the header encoder returns a record of length
exactly 120 for every date whose day and month print in at most two
digits and whose year is at least 10 (every real calendar date), and any
record the trailer encoder returns has length exactly 120; totals or
counts that overflow their boxes make the trailer encoder throw instead
of returning. -/
theorem c8_amended_lengths (today : JSDate) (content : List String) (total : JSInt)
    (t2 : String) (hd : today.day < 100) (hm : today.monthIdx + 1 < 100)
    (hy : 10 ≤ today.year) (h2 : generate_file_total_record content total = .ok t2) :
    generate_descriptive_record today = .ok (descriptiveRecordOf today) ∧
    (descriptiveRecordOf today).length = 120 ∧
    t2.length = 120 := by
  obtain ⟨hl, hok⟩ := header_length today hd hm hy
  exact ⟨hok, hl, (trailer_ok_cases content total t2 h2).2⟩

/-- Claim C8 amended witness at the fixed date and a zero total. -/
theorem c8_amended_lengths_witness :
    generate_descriptive_record d0 = .ok (descriptiveRecordOf d0) ∧
    (descriptiveRecordOf d0).length = 120 ∧
    (trailerRecordOf ["h"] (JSInt.int 0)).length = 120 :=
  c8_amended_lengths d0 ["h"] (JSInt.int 0) (trailerRecordOf ["h"] (JSInt.int 0))
    (by decide) (by decide) (by decide) rfl

/-- Claim C9 counterexample: the valid row with the six-character BSB
"123456" and the amount "9999999999.99" is accepted with the minor-unit
amount 999999999999, and the assembled record still has 120 characters,
but its chars 21-30 read 9999999999: the returned amount and the value
encoded at the claimed field position diverge. -/
theorem c9_misaligned_counterexample :
    generate_detail_record row9 = .ok (some (rec9, JSInt.int 999999999999)) ∧
    rec9.length = 120 ∧
    strSlice rec9 20 30 = "9999999999" ∧
    natOfDigits (strSlice rec9 20 30) = some 9999999999 ∧
    jsIntNonneg (JSInt.int 999999999999) = some 999999999999 ∧
    (9999999999 : ℕ) ≠ 999999999999 :=
  ⟨rfl, rfl, rfl, rfl, rfl, by norm_num⟩

/-- Claim C9 amended: the detail encoder returns a present pair only for
rows that pass validation and returns absent/absent for every invalid
row; and whenever the trimmed BSB is exactly 7 characters, the trimmed
account number fits its 9-character box and the printed amount fits its
10-character box, the record's amount field (chars 21-30) is exactly the
zero-padded printed amount and decodes back to the returned amount. -/
theorem c9_amended_field_match (row bad : Row) (rec : String) (amt : JSInt)
    (h : generate_detail_record row = .ok (some (rec, amt)))
    (hbad : rowInvalid bad = true)
    (hB : (jsTrim (row.BSB.getD "")).length = 7)
    (hA : (jsTrim (row.Account.getD "")).length ≤ 9)
    (hM : (jsIntRepr amt).length ≤ 10) :
    rowInvalid row = false ∧
    generate_detail_record bad = .ok none ∧
    strSlice rec 20 30 = jsPadStart (jsIntRepr amt) 10 '0' ∧
    natOfDigits (strSlice rec 20 30) = jsIntNonneg amt := by
  obtain ⟨hv, hrec, hamt, hlen⟩ := detail_ok_some row rec amt h
  subst hrec
  subst hamt
  have hfield := detail_amount_field row hB hA hM
  refine ⟨hv, detail_invalid bad hbad, hfield, ?_⟩
  rw [hfield]
  exact natOfDigits_pad_jsIntRepr (detailAmountOf row) 10

/-- Claim C9 amended witness at the spec's example row and a blank row. -/
theorem c9_amended_field_match_witness :
    rowInvalid row6 = false ∧
    generate_detail_record blankRow = .ok none ∧
    strSlice (detailRecordOf row6) 20 30 = jsPadStart (jsIntRepr (JSInt.int 123456)) 10 '0' ∧
    natOfDigits (strSlice (detailRecordOf row6) 20 30) = jsIntNonneg (JSInt.int 123456) :=
  c9_amended_field_match row6 blankRow (detailRecordOf row6) (JSInt.int 123456)
    rfl rfl rfl (by decide) (by decide)

set_option maxRecDepth 8000 in
/-- Claim C10: the valid row whose amount is "abc" is neither skipped nor
rejected: the detail encoder returns a present 120-character record whose
amount field reads "0000000NaN" together with a NaN amount, the batch
total becomes NaN, and the assembled trailer's net and credit fields both
read "0000000NaN". -/
theorem c10_nan_propagation :
    generate_detail_record rowAbc = .ok (some (recAbc, JSInt.nan)) ∧
    recAbc.length = 120 ∧
    strSlice recAbc 20 30 = "0000000NaN" ∧
    sumAmounts [rowAbc] = JSInt.nan ∧
    abaLines [rowAbc] d0 = .ok linesAbc ∧
    linesAbc.getLast? = some trailerAbc ∧
    strSlice trailerAbc 20 30 = "0000000NaN" ∧
    strSlice trailerAbc 30 40 = "0000000NaN" :=
  ⟨rfl, rfl, rfl, rfl, rfl, rfl, rfl, rfl⟩

end Aba
